import Mathlib

/-
Verification of the deterministic scoring core of `app/resume_analysis.py`
(careerwise-ai-assistant).

Embedding conventions:
* Python strings are Lean `String`s (ASCII fragment; `str.lower` is modelled
  by ASCII `Char.toLower`).
* `re.search(rf"\b{re.escape(kw)}\b", corpus)` is modelled literally:
  `re.escape` makes the keyword a literal pattern, and `\b` holds at a
  position iff exactly one of the adjacent characters is a word character
  (`[a-zA-Z0-9_]`); a missing neighbour (string edge) counts as non-word.
* Python floats are modelled as rationals (`ℚ`); `x / y` on numbers raises
  `ZeroDivisionError` when `y == 0`, so division is embedded as an
  `Option ℚ` (`pyDiv`).
* The scikit-learn TF-IDF backend is third-party code guarded by
  `try/except` in the source; it is embedded as an opaque parameter
  `engineCos : String → String → Option ℚ` (`none` = the backend raised,
  which the source catches and turns into `cos = 0.0`), together with the
  module-level availability flag `_HAS_SK` passed as a `Bool` parameter.
* A Python argument `extra: list[str] | None = None` used only through
  `if extra:` is modelled as a `List String` with `[]` standing for both
  `None` and the (behaviourally identical) empty list.
-/

/-- The module-level default skill catalog `DEFAULT_SKILLS`. -/
def DEFAULT_SKILLS : List String :=
  ["python", "java", "c", "c++", "html", "css", "javascript", "typescript", "react", "node",
   "sql", "postgres", "postgresql", "mysql", "mongodb",
   "aws", "gcp", "azure", "docker", "kubernetes",
   "linux", "git", "bash", "powershell",
   "pandas", "numpy", "scikit-learn", "sklearn", "tensorflow", "pytorch",
   "tableau", "power bi", "excel",
   "airflow", "dbt", "spark", "hadoop", "kafka", "etl", "mlops", "ci/cd"]

/-- Python `str.lower()` on the ASCII fragment. -/
def pyStrLower (s : String) : String := ⟨s.data.map Char.toLower⟩

/-- A regex word character (`\w`): `[a-zA-Z0-9_]`. -/
def isWordChar (c : Char) : Bool :=
  (('a' ≤ c) && (c ≤ 'z')) || (('A' ≤ c) && (c ≤ 'Z')) ||
  (('0' ≤ c) && (c ≤ '9')) || (c == '_')

/-- Whether position `p` of `s` holds a word character (out of range: no). -/
def wordAt (s : List Char) (p : Nat) : Bool :=
  match s[p]? with
  | some c => isWordChar c
  | none => false

/-- Python regex `\b` at position `p` (0 ≤ p ≤ length): a word boundary holds
iff exactly one of the character before `p` and the character at `p` is a
word character. -/
def boundaryAt (s : List Char) (p : Nat) : Bool :=
  (decide (p ≠ 0) && wordAt s (p - 1)) != wordAt s p

/-- The literal (escaped) pattern `kw` matches in `s` at position `p` with
word boundaries on both sides. -/
def matchAt (s kw : List Char) (p : Nat) : Bool :=
  ((s.drop p).take kw.length == kw) && boundaryAt s p && boundaryAt s (p + kw.length)

/-- Truth of `re.search(rf"\b{re.escape(kw)}\b", s) is not None`. -/
def reSearchWord (kw s : List Char) : Bool :=
  (List.range (s.length + 1)).any (fun p => matchAt s kw p)

/-- Python `\s` on the ASCII fragment: space, tab, newline, CR, VT, FF. -/
def isPySpace (c : Char) : Bool :=
  (c == ' ') || (c == '\t') || (c == '\n') || (c == '\r') || (c == '\x0B') || (c == '\x0C')

/-- A character kept by `_clean_text`'s substitution `[^a-z0-9+\s] → " "`. -/
def cleanKeep (c : Char) : Bool :=
  (('a' ≤ c) && (c ≤ 'z')) || (('0' ≤ c) && (c ≤ '9')) || (c == '+') || isPySpace c

/-- Helper for Python `str.split()`: split on whitespace runs, dropping
empty chunks, with `acc` the reversed current chunk. -/
def pySplitAux : List Char → List Char → List (List Char)
  | [], acc => if acc.isEmpty then [] else [acc.reverse]
  | c :: cs, acc =>
    if isPySpace c then
      if acc.isEmpty then pySplitAux cs [] else acc.reverse :: pySplitAux cs []
    else pySplitAux cs (c :: acc)

/-- Python `str.split()` (no separator argument). -/
def pySplit (s : List Char) : List (List Char) := pySplitAux s []

/-- Embedding of `_clean_text`: lower-case, replace `[^a-z0-9+\s]` by a space, then
`" ".join(t.split())`. -/
def _clean_text (t : String) : String :=
  let lowered := (pyStrLower t).data
  let replaced := lowered.map (fun c => if cleanKeep c then c else ' ')
  String.intercalate " " ((pySplit replaced).map (fun w => ⟨w⟩))

/-- Embedding of `_extract_skills`: lower-case the text, merge the default catalog with
the lower-cased extra keywords, and keep the keywords found in the text as
word-bounded literal matches. -/
def _extract_skills (text : String) (extra : List String) : Finset String :=
  let corpus := pyStrLower text
  let keys : Finset String := DEFAULT_SKILLS.toFinset ∪ (extra.map pyStrLower).toFinset
  keys.filter (fun kw => reSearchWord kw.data corpus.data = true)

/-- Python numeric division: raises (`none`) on a zero denominator. -/
def pyDiv (num den : ℚ) : Option ℚ :=
  if den = 0 then none else some (num / den)

/-- The dict returned by `compute_nlp_scores`. -/
structure ScoreReport where
  cosine : ℚ
  skills_overlap : ℚ
  hybrid : ℚ
  resume_skills : Finset String
  jd_skills : Finset String
deriving DecidableEq

/-- The hybrid weighting of `compute_nlp_scores` (source lines 204–209):
`0.65*cos + 0.35*jacc` when scikit-learn is available, `0.35*jacc`
otherwise. -/
def hybrid_score (cos jacc : ℚ) (engine_available : Bool) : ℚ :=
  if engine_available then 0.65 * cos + 0.35 * jacc else 0.35 * jacc

/-- Embedding of `compute_nlp_scores`. `hasSK` is the module flag `_HAS_SK`; `engineCos`
is the guarded TF-IDF cosine backend, applied to the `_clean_text`-ed
inputs, with `none` (an internal exception) caught and replaced by `0.0`.
The Jaccard division is the only unguarded fallible operation, hence the
`Option` result. -/
def compute_nlp_scores (hasSK : Bool) (engineCos : String → String → Option ℚ)
    (resume_text jd_text : String) (extra_skill_keywords : List String) :
    Option ScoreReport :=
  let cos : ℚ :=
    if hasSK then (engineCos (_clean_text resume_text) (_clean_text jd_text)).getD 0 else 0
  let rs := _extract_skills resume_text extra_skill_keywords
  let js := _extract_skills jd_text extra_skill_keywords
  let union : ℕ := max 1 (rs ∪ js).card
  (pyDiv ((rs ∩ js).card : ℚ) (union : ℚ)).map (fun jacc =>
    { cosine := cos
      skills_overlap := jacc
      hybrid := hybrid_score cos jacc hasSK
      resume_skills := rs
      jd_skills := js })

/-- The cosine value `compute_nlp_scores` ends up using. -/
def cosineOf (hasSK : Bool) (engineCos : String → String → Option ℚ) (a b : String) : ℚ :=
  if hasSK then (engineCos (_clean_text a) (_clean_text b)).getD 0 else 0

/-- The Jaccard overlap `compute_nlp_scores` ends up using. -/
def jaccardOf (a b : String) (extra : List String) : ℚ :=
  ((_extract_skills a extra ∩ _extract_skills b extra).card : ℚ) /
    ((max 1 (_extract_skills a extra ∪ _extract_skills b extra).card : ℕ) : ℚ)

/-- Unfolded value of `hybrid_score` with the engine available. -/
theorem hybrid_score_true (c j : ℚ) : hybrid_score c j true = 0.65 * c + 0.35 * j := rfl

/-- Unfolded value of `hybrid_score` with the engine unavailable. -/
theorem hybrid_score_false (c j : ℚ) : hybrid_score c j false = 0.35 * j := rfl

/-- With `_HAS_SK` false the cosine used is the fallback 0. -/
theorem cosineOf_false (e : String → String → Option ℚ) (a b : String) :
    cosineOf false e a b = 0 := rfl

/-- With `_HAS_SK` true the cosine used is the backend value on the cleaned
texts, with an internal exception caught as 0. -/
theorem cosineOf_true (e : String → String → Option ℚ) (a b : String) :
    cosineOf true e a b = (e (_clean_text a) (_clean_text b)).getD 0 := rfl

/-- Skill extraction on the empty string finds nothing. -/
theorem extract_skills_empty : _extract_skills "" [] = ∅ := by decide

/-- The Jaccard overlap of two empty documents is 0. -/
theorem jaccardOf_empty : jaccardOf "" "" [] = 0 := by
  unfold jaccardOf
  rw [extract_skills_empty]
  simp

/-- Unfolding equation for `compute_nlp_scores`: the `max 1 _` denominator is
never zero, so the Jaccard division always succeeds and the function always
returns `some` report, with the five fields as below. -/
theorem compute_nlp_scores_eq (hasSK : Bool) (e : String → String → Option ℚ)
    (a b : String) (ex : List String) :
    compute_nlp_scores hasSK e a b ex =
      some { cosine := cosineOf hasSK e a b
             skills_overlap := jaccardOf a b ex
             hybrid := hybrid_score (cosineOf hasSK e a b) (jaccardOf a b ex) hasSK
             resume_skills := _extract_skills a ex
             jd_skills := _extract_skills b ex } := by
  have h1 : (0 : ℕ) < max 1 (_extract_skills a ex ∪ _extract_skills b ex).card :=
    Nat.lt_of_lt_of_le Nat.zero_lt_one (Nat.le_max_left _ _)
  have hden :
      ((max 1 (_extract_skills a ex ∪ _extract_skills b ex).card : ℕ) : ℚ) ≠ 0 :=
    Nat.cast_ne_zero.mpr (Nat.pos_iff_ne_zero.mp h1)
  have hpy : pyDiv ((_extract_skills a ex ∩ _extract_skills b ex).card : ℚ)
      ((max 1 (_extract_skills a ex ∪ _extract_skills b ex).card : ℕ) : ℚ) =
      some (jaccardOf a b ex) := by
    unfold pyDiv
    rw [if_neg hden]
    rfl
  simp only [compute_nlp_scores, hpy, Option.map_some']
  rfl

/-- The Jaccard fraction of any two finite sets, with the `max 1 _`
denominator, lies in [0,1]. -/
theorem jaccard_frac_unit_interval (s t : Finset String) :
    0 ≤ ((s ∩ t).card : ℚ) / ((max 1 (s ∪ t).card : ℕ) : ℚ) ∧
      ((s ∩ t).card : ℚ) / ((max 1 (s ∪ t).card : ℕ) : ℚ) ≤ 1 := by
  have hden : (0 : ℚ) < ((max 1 (s ∪ t).card : ℕ) : ℚ) := by
    exact_mod_cast Nat.lt_of_lt_of_le Nat.zero_lt_one (Nat.le_max_left _ _)
  constructor
  · exact div_nonneg (Nat.cast_nonneg _) hden.le
  · rw [div_le_one hden]
    exact_mod_cast le_trans (Finset.card_le_card Finset.inter_subset_union)
      (Nat.le_max_right _ _)

/-- The value `jaccardOf` lies in [0,1]. -/
theorem jaccardOf_unit_interval (a b : String) (ex : List String) :
    0 ≤ jaccardOf a b ex ∧ jaccardOf a b ex ≤ 1 := by
  unfold jaccardOf
  exact jaccard_frac_unit_interval _ _

/-- The value `cosineOf` lies in [0,1] whenever the backend's values do. -/
theorem cosineOf_unit_interval (hasSK : Bool) (e : String → String → Option ℚ)
    (hE : ∀ x y r, e x y = some r → 0 ≤ r ∧ r ≤ 1) (a b : String) :
    0 ≤ cosineOf hasSK e a b ∧ cosineOf hasSK e a b ≤ 1 := by
  cases hasSK with
  | false =>
    rw [cosineOf_false]
    exact ⟨le_rfl, by norm_num⟩
  | true =>
    rw [cosineOf_true]
    cases h : e (_clean_text a) (_clean_text b) with
    | none => simp
    | some r => simpa using hE _ _ r h

/-- The value `hybrid_score` lies in [0,1] when both inputs do. -/
theorem hybrid_score_unit_interval (c j : ℚ) (avail : Bool)
    (hc : 0 ≤ c ∧ c ≤ 1) (hj : 0 ≤ j ∧ j ≤ 1) :
    0 ≤ hybrid_score c j avail ∧ hybrid_score c j avail ≤ 1 := by
  obtain ⟨h1, h2⟩ := hc
  obtain ⟨h3, h4⟩ := hj
  cases avail with
  | false =>
    rw [hybrid_score_false]
    constructor <;> nlinarith
  | true =>
    rw [hybrid_score_true]
    constructor <;> nlinarith

/-- C1: for every pair of input strings, every extra keyword list, and every
TF-IDF backend whose cosine values lie in [0,1], the report returned by
`compute_nlp_scores` has its `cosine`, `skills_overlap` and `hybrid` fields
each in the closed interval [0,1]. -/
theorem compute_nlp_scores_fields_unit_interval
    (hasSK : Bool) (e : String → String → Option ℚ)
    (hE : ∀ x y r, e x y = some r → 0 ≤ r ∧ r ≤ 1)
    (a b : String) (ex : List String) (rep : ScoreReport)
    (hrep : compute_nlp_scores hasSK e a b ex = some rep) :
    (0 ≤ rep.cosine ∧ rep.cosine ≤ 1) ∧
    (0 ≤ rep.skills_overlap ∧ rep.skills_overlap ≤ 1) ∧
    (0 ≤ rep.hybrid ∧ rep.hybrid ≤ 1) := by
  rw [compute_nlp_scores_eq] at hrep
  injection hrep with hrep
  subst hrep
  have hcos := cosineOf_unit_interval hasSK e hE a b
  have hjac := jaccardOf_unit_interval a b ex
  exact ⟨hcos, hjac, hybrid_score_unit_interval _ _ _ hcos hjac⟩

/-- Witness for C1 at `hasSK = true`, a constant backend returning 1/2, and
two empty documents. -/
theorem compute_nlp_scores_fields_unit_interval_witness :
    (0 ≤ (ScoreReport.mk (1/2) 0 (13/40) ∅ ∅).cosine ∧
      (ScoreReport.mk (1/2) 0 (13/40) ∅ ∅).cosine ≤ 1) ∧
    (0 ≤ (ScoreReport.mk (1/2) 0 (13/40) ∅ ∅).skills_overlap ∧
      (ScoreReport.mk (1/2) 0 (13/40) ∅ ∅).skills_overlap ≤ 1) ∧
    (0 ≤ (ScoreReport.mk (1/2) 0 (13/40) ∅ ∅).hybrid ∧
      (ScoreReport.mk (1/2) 0 (13/40) ∅ ∅).hybrid ≤ 1) :=
  compute_nlp_scores_fields_unit_interval true (fun _ _ => some (1/2))
    (by
      intro x y r h
      have hr := Option.some.inj h
      rw [← hr]
      norm_num)
    "" "" [] (ScoreReport.mk (1/2) 0 (13/40) ∅ ∅)
    (by
      rw [compute_nlp_scores_eq, cosineOf_true, jaccardOf_empty]
      norm_num [hybrid_score_true, extract_skills_empty])

/-- C2: `compute_nlp_scores` is total: for every pair of input strings and
every extra keyword list it returns a report (never `none`, i.e. never an
unhandled exception), populated with all five fields. -/
theorem compute_nlp_scores_total (hasSK : Bool) (e : String → String → Option ℚ)
    (a b : String) (ex : List String) :
    ∃ rep : ScoreReport, compute_nlp_scores hasSK e a b ex = some rep ∧
      rep.cosine = cosineOf hasSK e a b ∧
      rep.skills_overlap = jaccardOf a b ex ∧
      rep.hybrid = hybrid_score (cosineOf hasSK e a b) (jaccardOf a b ex) hasSK ∧
      rep.resume_skills = _extract_skills a ex ∧
      rep.jd_skills = _extract_skills b ex := by
  refine ⟨_, compute_nlp_scores_eq hasSK e a b ex, ?_, ?_, ?_, ?_, ?_⟩ <;> rfl

/-- C3: the hybrid score is `0.65*cosine + 0.35*skills_overlap` when the
engine is available and `0.35*skills_overlap` when it is unavailable (the
cosine weight is dropped, not redistributed); in particular
`hybrid_score 1 0.5 false = 0.175`; and the `hybrid` field of every report
produced by `compute_nlp_scores` is this function of its `cosine` and
`skills_overlap` fields. -/
theorem hybrid_score_formula :
    (∀ c j : ℚ, hybrid_score c j true = 0.65 * c + 0.35 * j ∧
      hybrid_score c j false = 0.35 * j) ∧
    hybrid_score 1 0.5 false = 0.175 ∧
    ∀ (hasSK : Bool) (e : String → String → Option ℚ) (a b : String)
      (ex : List String) (rep : ScoreReport),
      compute_nlp_scores hasSK e a b ex = some rep →
      rep.hybrid = hybrid_score rep.cosine rep.skills_overlap hasSK := by
  refine ⟨fun c j => ⟨hybrid_score_true c j, hybrid_score_false c j⟩, ?_, ?_⟩
  · rw [hybrid_score_false]
    norm_num
  · intro hasSK e a b ex rep h
    rw [compute_nlp_scores_eq] at h
    injection h with h
    subst h
    rfl

/-- Witness for C3: the unavailable-engine example value. -/
theorem hybrid_score_formula_witness : hybrid_score 1 0.5 false = 0.175 :=
  hybrid_score_formula.2.1

/-- C4: the catalog keyword "c++" never matches a standalone "c++" token.
On input "i know c++" the extraction returns exactly {"c"}: the trailing
`\b` of the pattern `\bc\+\+\b` can only hold if a word character follows
the final "+", so a standalone occurrence of "c++" is never detected,
contradicting the documented intent of keeping "c++" in the catalog and of
preserving "+" in `_clean_text`. -/
theorem extract_skills_cpp_standalone_not_found :
    _extract_skills "i know c++" [] = {"c"} := by decide

/-- C5 counterexample: a run with the engine unavailable and a run with the
engine available (whose backend returns cosine 0) produce identical
reports, so the returned report carries no availability flag and degraded
mode cannot be detected from the report alone. -/
theorem degraded_mode_not_detectable_from_report :
    compute_nlp_scores false (fun _ _ => none) "" "" [] =
      compute_nlp_scores true (fun _ _ => some 0) "" "" [] := by
  rw [compute_nlp_scores_eq, compute_nlp_scores_eq, cosineOf_false, cosineOf_true,
    jaccardOf_empty]
  norm_num [hybrid_score_false, hybrid_score_true]

/-- C5 (amended): when the vectorization capability is unavailable, every
report returned by `compute_nlp_scores` has `cosine = 0.0`; availability
itself is the module-level `_HAS_SK` flag, not a field of the report. -/
theorem degraded_mode_cosine_zero (e : String → String → Option ℚ)
    (a b : String) (ex : List String) (rep : ScoreReport)
    (h : compute_nlp_scores false e a b ex = some rep) :
    rep.cosine = 0 := by
  rw [compute_nlp_scores_eq] at h
  injection h with h
  subst h
  rfl

/-- Witness for the amended C5. -/
theorem degraded_mode_cosine_zero_witness : (ScoreReport.mk 0 0 0 ∅ ∅).cosine = 0 :=
  degraded_mode_cosine_zero (fun _ _ => none) "" "" [] (ScoreReport.mk 0 0 0 ∅ ∅)
    (by
      rw [compute_nlp_scores_eq, cosineOf_false, jaccardOf_empty]
      norm_num [hybrid_score_false, extract_skills_empty])

/-- C6: word boundaries are respected: extraction on "javascript" (no extra
keywords) does not contain "java". -/
theorem extract_skills_javascript_no_java :
    ("java" ∈ _extract_skills "javascript" []) = False :=
  eq_false (by decide)

/-- C7: on two empty strings `compute_nlp_scores` returns a report with
`skills_overlap = 0.0` (the `max 1 _` denominator makes the empty/empty
case 0, not an error) and both skill sets empty. -/
theorem compute_nlp_scores_empty_empty (hasSK : Bool)
    (e : String → String → Option ℚ) :
    ∃ rep : ScoreReport, compute_nlp_scores hasSK e "" "" [] = some rep ∧
      rep.skills_overlap = 0 ∧ rep.resume_skills = ∅ ∧ rep.jd_skills = ∅ := by
  refine ⟨_, compute_nlp_scores_eq hasSK e "" "" [], ?_, ?_, ?_⟩
  · exact jaccardOf_empty
  · exact extract_skills_empty
  · exact extract_skills_empty

/-- C8: with the engine available, `hybrid_score` is monotonically
non-decreasing in each argument over [0,1]. -/
theorem hybrid_score_monotone (c₁ c₂ s₁ s₂ c s : ℚ)
    (hc₁ : 0 ≤ c₁) (hc₂ : c₂ ≤ 1) (hcc : c₁ ≤ c₂)
    (hs₁ : 0 ≤ s₁) (hs₂ : s₂ ≤ 1) (hss : s₁ ≤ s₂)
    (hc : 0 ≤ c) (hcu : c ≤ 1) (hs : 0 ≤ s) (hsu : s ≤ 1) :
    hybrid_score c₁ s true ≤ hybrid_score c₂ s true ∧
    hybrid_score c s₁ true ≤ hybrid_score c s₂ true := by
  simp only [hybrid_score_true]
  constructor <;> nlinarith

/-- Witness for C8 at the corners of the unit square. -/
theorem hybrid_score_monotone_witness :
    hybrid_score 0 0 true ≤ hybrid_score 1 0 true ∧
    hybrid_score 0 0 true ≤ hybrid_score 0 1 true :=
  hybrid_score_monotone 0 1 0 1 0 0 (by norm_num) (by norm_num) (by norm_num)
    (by norm_num) (by norm_num) (by norm_num) (by norm_num) (by norm_num)
    (by norm_num) (by norm_num)

/-- C9: the skill-based fields are symmetric under swapping the two
documents: `skills_overlap` is unchanged, and `resume_skills`/`jd_skills`
swap roles. -/
theorem compute_nlp_scores_swap_symmetric (hasSK : Bool)
    (e : String → String → Option ℚ) (a b : String) (ex : List String) :
    (compute_nlp_scores hasSK e a b ex).map ScoreReport.skills_overlap =
      (compute_nlp_scores hasSK e b a ex).map ScoreReport.skills_overlap ∧
    (compute_nlp_scores hasSK e a b ex).map ScoreReport.resume_skills =
      (compute_nlp_scores hasSK e b a ex).map ScoreReport.jd_skills ∧
    (compute_nlp_scores hasSK e a b ex).map ScoreReport.jd_skills =
      (compute_nlp_scores hasSK e b a ex).map ScoreReport.resume_skills := by
  rw [compute_nlp_scores_eq hasSK e a b ex, compute_nlp_scores_eq hasSK e b a ex]
  have hj : jaccardOf a b ex = jaccardOf b a ex := by
    unfold jaccardOf
    rw [Finset.inter_comm, Finset.union_comm]
  rw [hj]
  exact ⟨rfl, rfl, rfl⟩

/-- C10: extra keywords only ever enlarge the extraction result: the skills
found with no extra keywords are a subset of those found with any extra
keyword list. -/
theorem extract_skills_extra_superset (t : String) (ex : List String) :
    _extract_skills t [] ⊆ _extract_skills t ex := by
  unfold _extract_skills
  apply Finset.filter_subset_filter
  intro x hx
  simp only [List.map_nil, List.toFinset_nil, Finset.union_empty] at hx
  exact Finset.mem_union_left _ hx

/-- Witness for C10 on a concrete text and extra keyword list. -/
theorem extract_skills_extra_superset_witness :
    _extract_skills "python" [] ⊆ _extract_skills "python" ["rustlang"] :=
  extract_skills_extra_superset "python" ["rustlang"]
